import Mathlib

/-!
# CEP lookup race (main.go)

A shallow embedding of main.go: the two provider adapters fetchBrasilAPI and
fetchViaCEP, the JSON decoding of their payloads, and the main function with its
buffered channel, its deadline context and its select statement.

The network and the parts of the Go standard library the program calls are inputs
of the model (structure Env).  Goroutines are interleaved by an explicit list of
events; a channel send that would block is a step that is not enabled, and the
select of main takes any of its ready cases.
-/

namespace CepRace

/-! ## Data model (main.go lines 13 to 43) -/

/-- Payload record of the BrasilAPI provider (struct BrasilAPIResponse). -/
structure BrasilAPIResponse where
  Cep : String
  State : String
  City : String
  District : String
  Street : String
  Service : String
  deriving DecidableEq, Repr

/-- Payload record of the ViaCEP provider (struct ViaCEPResponse). -/
structure ViaCEPResponse where
  Cep : String
  Logradouro : String
  Complemento : String
  Bairro : String
  Localidade : String
  Uf : String
  Ibge : String
  Gia : String
  Ddd : String
  Siafi : String
  deriving DecidableEq, Repr

/-- Common address record sent on the result channel (struct APIResponse). -/
structure APIResponse where
  CEP : String
  Street : String
  District : String
  City : String
  State : String
  APIName : String
  deriving DecidableEq, Repr

/-! ## JSON decoding into a struct of strings (encoding/json, Decoder.Decode) -/

/-- A JSON value, as read from a response body. -/
inductive JSONValue where
  | null
  | bool (b : Bool)
  | number (text : String)
  | string (s : String)
  | array (elems : List JSONValue)
  | object (members : List (String × JSONValue))

/-- Case folding of an object key as encoding/json does it (its foldName): an ASCII
lower-case letter becomes the upper-case one, other ASCII characters stay, and a
non-ASCII character is replaced by the smallest character of its Unicode simple
folding orbit, a table of the Go library that the caller supplies as foldRune. -/
def foldName (foldRune : Char → Char) (s : String) : List Char :=
  s.data.map fun c =>
    if c.toNat < 128 then
      (if 97 ≤ c.toNat ∧ c.toNat ≤ 122 then Char.ofNat (c.toNat - 32) else c)
    else foldRune c

/-- The struct field an object key is stored in: the field whose JSON name is the
key, otherwise the first field whose folded name is the folded key. -/
def findField (foldRune : Char → Char) (fields : List String) (key : String) :
    Option String :=
  match fields.find? (fun f => f == key) with
  | some f => some f
  | none => fields.find? (fun f => foldName foldRune f == foldName foldRune key)

/-- Decoding of the members of a JSON object into a struct whose fields are all
strings: a member with an unknown key is skipped, a string is stored, null leaves
the field as it is, and any other value under a known key is a type error, which
makes Decode return an error. -/
def decodeMembers {α : Type} (foldRune : Char → Char) (fields : List String)
    (set : α → String → String → α) : List (String × JSONValue) → α → Option α
  | [], d => some d
  | (k, v) :: rest, d =>
    match findField foldRune fields k with
    | none => decodeMembers foldRune fields set rest d
    | some f =>
      match v with
      | .string s => decodeMembers foldRune fields set rest (set d f s)
      | .null => decodeMembers foldRune fields set rest d
      | _ => none

/-- Decode of a response body into a struct of strings that starts at its zero
value.  The body is none when no JSON value can be read from it (read error,
empty or malformed text).  JSON null leaves the struct at its zero value, an
object is decoded member by member, every other value is a type error. -/
def decodeStruct {α : Type} (foldRune : Char → Char) (fields : List String)
    (set : α → String → String → α) (zero : α) : Option JSONValue → Option α
  | none => none
  | some .null => some zero
  | some (.object members) => decodeMembers foldRune fields set members zero
  | some _ => none

/-- JSON names of the fields of BrasilAPIResponse (the struct tags). -/
def brasilFields : List String :=
  ["cep", "state", "city", "district", "street", "service"]

/-- JSON names of the fields of ViaCEPResponse (the struct tags). -/
def viaCEPFields : List String :=
  ["cep", "logradouro", "complemento", "bairro", "localidade", "uf", "ibge", "gia",
   "ddd", "siafi"]

/-- Store a string in the field of BrasilAPIResponse with the given JSON name. -/
def setBrasilField (d : BrasilAPIResponse) (name : String) (s : String) :
    BrasilAPIResponse :=
  if name = "cep" then { d with Cep := s }
  else if name = "state" then { d with State := s }
  else if name = "city" then { d with City := s }
  else if name = "district" then { d with District := s }
  else if name = "street" then { d with Street := s }
  else if name = "service" then { d with Service := s }
  else d

/-- Store a string in the field of ViaCEPResponse with the given JSON name. -/
def setViaCEPField (d : ViaCEPResponse) (name : String) (s : String) :
    ViaCEPResponse :=
  if name = "cep" then { d with Cep := s }
  else if name = "logradouro" then { d with Logradouro := s }
  else if name = "complemento" then { d with Complemento := s }
  else if name = "bairro" then { d with Bairro := s }
  else if name = "localidade" then { d with Localidade := s }
  else if name = "uf" then { d with Uf := s }
  else if name = "ibge" then { d with Ibge := s }
  else if name = "gia" then { d with Gia := s }
  else if name = "ddd" then { d with Ddd := s }
  else if name = "siafi" then { d with Siafi := s }
  else d

/-- Zero value of BrasilAPIResponse (var data BrasilAPIResponse). -/
def zeroBrasil : BrasilAPIResponse :=
  { Cep := "", State := "", City := "", District := "", Street := "", Service := "" }

/-- Zero value of ViaCEPResponse (var data ViaCEPResponse). -/
def zeroViaCEP : ViaCEPResponse :=
  { Cep := "", Logradouro := "", Complemento := "", Bairro := "", Localidade := "",
    Uf := "", Ibge := "", Gia := "", Ddd := "", Siafi := "" }

/-- json.NewDecoder(resp.Body).Decode(&data) for data of type BrasilAPIResponse. -/
def decodeBrasilAPI (foldRune : Char → Char) (body : Option JSONValue) :
    Option BrasilAPIResponse :=
  decodeStruct foldRune brasilFields setBrasilField zeroBrasil body

/-- json.NewDecoder(resp.Body).Decode(&data) for data of type ViaCEPResponse. -/
def decodeViaCEP (foldRune : Char → Char) (body : Option JSONValue) :
    Option ViaCEPResponse :=
  decodeStruct foldRune viaCEPFields setViaCEPField zeroViaCEP body

/-! ## HTTP exchange -/

/-- An HTTP request as built by http.NewRequestWithContext. -/
structure Request where
  method : String
  url : String
  deriving DecidableEq, Repr

/-- An HTTP response: its status code and the JSON value its body holds, none
when no JSON value can be read from the body. -/
structure Response where
  StatusCode : Int
  Body : Option JSONValue

/-- The constant http.StatusOK. -/
def StatusOK : Int := 200

/-- What the program takes from outside: request construction (none is an error),
the transport (none is an error of client.Do, which includes cancellation and
expiry of the context), and the Unicode folding table used by encoding/json. -/
structure Env where
  newRequestWithContext : String → String → Option Request
  clientDo : Request → Option Response
  foldRune : Char → Char

/-- One run of an adapter: the requests it handed to client.Do and the values it
sent on the result channel, in order. -/
structure AdapterRun where
  requests : List Request
  sends : List APIResponse

/-! ## The two adapters (main.go lines 45 to 115) -/

/-- Adapter for BrasilAPI, main.go lines 45 to 79. -/
def fetchBrasilAPI (env : Env) (cep : String) : AdapterRun :=
  let url := "https://brasilapi.com.br/api/cep/v1/" ++ cep
  match env.newRequestWithContext "GET" url with
  | none => { requests := [], sends := [] }
  | some req =>
    match env.clientDo req with
    | none => { requests := [req], sends := [] }
    | some resp =>
      if resp.StatusCode ≠ StatusOK then { requests := [req], sends := [] }
      else
        match decodeBrasilAPI env.foldRune resp.Body with
        | none => { requests := [req], sends := [] }
        | some data =>
          let response : APIResponse :=
            { CEP := data.Cep
              Street := data.Street
              District := data.District
              City := data.City
              State := data.State
              APIName := "BrasilAPI" }
          { requests := [req], sends := [response] }

/-- Adapter for ViaCEP, main.go lines 81 to 115. -/
def fetchViaCEP (env : Env) (cep : String) : AdapterRun :=
  let url := "http://viacep.com.br/ws/" ++ cep ++ "/json/"
  match env.newRequestWithContext "GET" url with
  | none => { requests := [], sends := [] }
  | some req =>
    match env.clientDo req with
    | none => { requests := [req], sends := [] }
    | some resp =>
      if resp.StatusCode ≠ StatusOK then { requests := [req], sends := [] }
      else
        match decodeViaCEP env.foldRune resp.Body with
        | none => { requests := [req], sends := [] }
        | some data =>
          let response : APIResponse :=
            { CEP := data.Cep
              Street := data.Logradouro
              District := data.Bairro
              City := data.Localidade
              State := data.Uf
              APIName := "ViaCEP" }
          { requests := [req], sends := [response] }

/-! ## The process: main, its goroutines, the channel and the context -/

/-- The two adapters started by main. -/
inductive Adapter where
  | brasilAPI
  | viaCEP
  deriving DecidableEq, Repr

/-- The value each adapter writes in the APIName field. -/
def Adapter.name : Adapter → String
  | .brasilAPI => "BrasilAPI"
  | .viaCEP => "ViaCEP"

/-- The function a goroutine runs. -/
def Adapter.fetch (env : Env) : Adapter → String → AdapterRun
  | .brasilAPI => fetchBrasilAPI env
  | .viaCEP => fetchViaCEP env

/-- The URL an adapter requests for a CEP (the fmt.Sprintf at the top of each
adapter). -/
def Adapter.url : Adapter → String → String
  | .brasilAPI, cep => "https://brasilapi.com.br/api/cep/v1/" ++ cep
  | .viaCEP, cep => "http://viacep.com.br/ws/" ++ cep ++ "/json/"

/-- Whether Decode of the body into the payload record of the adapter returns no
error. -/
def Adapter.decodes (env : Env) : Adapter → Option JSONValue → Bool
  | .brasilAPI, body => (decodeBrasilAPI env.foldRune body).isSome
  | .viaCEP, body => (decodeViaCEP env.foldRune body).isSome

/-- State of an adapter goroutine: not started; started with its CEP argument and
busy with the HTTP exchange; or past the exchange with the values it has still to
send on the channel (the empty list when it has returned). -/
inductive GoState where
  | notStarted
  | running (cep : String)
  | sending (vals : List APIResponse)
  deriving DecidableEq, Repr

/-- State of the context made by context.WithTimeout. -/
inductive CtxState where
  | active
  | deadlineExceeded
  | canceled
  deriving DecidableEq, Repr

/-- A deferred call of main. -/
inductive Deferred where
  | cancel
  deriving DecidableEq, Repr

/-- Where main is: before its first statement, gone through the usage branch,
waiting in its select, past the receive branch with a value, or past the
ctx.Done() branch. -/
inductive MainPC where
  | entry
  | usageExit
  | atSelect
  | received (r : APIResponse)
  | timedOut
  deriving DecidableEq, Repr

/-- State of the process.  The last four fields are history kept for the
statements: the requests handed to client.Do, the values sent on the channel with
their sender in sending order, the number of receives from the channel, and the
number of calls of the cancel function. -/
structure Sys where
  pc : MainPC
  stdout : List String
  exitCode : Option Nat
  ctx : Option CtxState
  deferred : List Deferred
  chanCap : Option Nat
  chanBuf : List APIResponse
  brasil : GoState
  viacep : GoState
  requests : List Request
  published : List (Adapter × APIResponse)
  reads : Nat
  cancelCalls : Nat
  deriving DecidableEq, Repr

/-- The process when main is entered. -/
def Sys.start : Sys :=
  { pc := .entry, stdout := [], exitCode := none, ctx := none, deferred := [],
    chanCap := none, chanBuf := [], brasil := .notStarted, viacep := .notStarted,
    requests := [], published := [], reads := 0, cancelCalls := 0 }

/-- State of the goroutine of an adapter. -/
def Sys.goroutine (s : Sys) : Adapter → GoState
  | .brasilAPI => s.brasil
  | .viaCEP => s.viacep

/-- Update of the state of the goroutine of an adapter. -/
def Sys.setGoroutine (s : Sys) (a : Adapter) (g : GoState) : Sys :=
  match a with
  | .brasilAPI => { s with brasil := g }
  | .viaCEP => { s with viacep := g }

/-- The call fmt.Println with one string argument. -/
def println (line : String) (s : Sys) : Sys :=
  { s with stdout := s.stdout ++ [line ++ "\n"] }

/-- The call fmt.Printf with a format that is a label, one %s verb and a newline. -/
def printf (label : String) (arg : String) (s : Sys) : Sys :=
  { s with stdout := s.stdout ++ [label ++ arg ++ "\n"] }

/-- The call os.Exit: the process ends with the status, deferred calls do not run. -/
def osExit (code : Nat) (s : Sys) : Sys :=
  { s with exitCode := some code }

/-- The call context.WithTimeout(context.Background(), 1*time.Second). -/
def withTimeout (s : Sys) : Sys :=
  { s with ctx := some .active }

/-- The cancel function returned by context.WithTimeout: it counts as a call and
cancels the context when the context is still active. -/
def cancel (s : Sys) : Sys :=
  { s with
    cancelCalls := s.cancelCalls + 1
    ctx := match s.ctx with
      | some .active => some .canceled
      | c => c }

/-- The statement defer cancel(). -/
def deferCancel (s : Sys) : Sys :=
  { s with deferred := Deferred.cancel :: s.deferred }

/-- The call make(chan APIResponse, n). -/
def makeChan (n : Nat) (s : Sys) : Sys :=
  { s with chanCap := some n, chanBuf := [] }

/-- A go statement starting an adapter with a CEP. -/
def goStart (a : Adapter) (cep : String) (s : Sys) : Sys :=
  s.setGoroutine a (.running cep)

/-- The deferred calls, run most recent first. -/
def runDeferred : List Deferred → Sys → Sys
  | [], s => s
  | .cancel :: rest, s => runDeferred rest (cancel s)

/-- Return from main: the deferred calls run, then the process ends with status 0. -/
def returnFromMain (s : Sys) : Sys :=
  { runDeferred s.deferred { s with deferred := [] } with exitCode := some 0 }

/-- The six lines the receive branch of the select prints (main.go lines 140 to 145). -/
def printResponse (response : APIResponse) (s : Sys) : Sys :=
  printf "Estado: " response.State
    (printf "Cidade: " response.City
      (printf "Bairro: " response.District
        (printf "Logradouro: " response.Street
          (printf "CEP: " response.CEP
            (printf "API mais rápida: " response.APIName s)))))

/-- main.go lines 118 to 135: main up to its select statement, on the argument
vector os.Args. -/
def main (args : List String) : Sys :=
  if h : args.length < 2 then
    osExit 1
      (println "Exemplo: go run main.go 01153000"
        (println "Uso: go run main.go <CEP>" { Sys.start with pc := .usageExit }))
  else
    let cep := args.get ⟨1, by omega⟩
    let s := withTimeout Sys.start
    let s := deferCancel s
    let s := makeChan 2 s
    let s := goStart .brasilAPI cep s
    let s := goStart .viaCEP cep s
    { s with pc := .atSelect }

/-- What can happen once main waits in its select: an adapter finishes its HTTP
exchange, an adapter sends on the channel, the deadline of the context expires,
the select takes its receive case, the select takes its ctx.Done() case. -/
inductive Event where
  | http (a : Adapter)
  | send (a : Adapter)
  | deadline
  | selectRecv
  | selectDone
  deriving DecidableEq, Repr

/-- One step of the process; none when the event cannot happen in the state.  A
send on a full buffer (nobody is receiving) blocks, so it cannot happen.  The
select (main.go lines 138 to 149) can take a case when that case is ready; when
both are ready either event can happen, as Go chooses among the ready cases.  A
select that blocks and is woken by the first case to become ready is the event of
that case right after the event that made it ready.
Events of the goroutines stay possible after main has left its select: they are
what the adapters do while main prints and until the process is gone. -/
def step (env : Env) (e : Event) (s : Sys) : Option Sys :=
  match e with
  | .http a =>
    match s.goroutine a with
    | .running cep =>
      let r := a.fetch env cep
      some { s.setGoroutine a (.sending r.sends) with requests := s.requests ++ r.requests }
    | _ => none
  | .send a =>
    match s.goroutine a, s.chanCap with
    | .sending (v :: rest), some cap =>
      if s.chanBuf.length < cap then
        some { s.setGoroutine a (.sending rest) with
          chanBuf := s.chanBuf ++ [v]
          published := s.published ++ [(a, v)] }
      else none
    | _, _ => none
  | .deadline =>
    match s.ctx with
    | some .active => some { s with ctx := some .deadlineExceeded }
    | _ => none
  | .selectRecv =>
    match s.pc, s.chanBuf with
    | .atSelect, response :: rest =>
      some (returnFromMain (printResponse response
        { s with pc := .received response, chanBuf := rest, reads := s.reads + 1 }))
    | _, _ => none
  | .selectDone =>
    match s.pc, s.ctx with
    | .atSelect, some .deadlineExceeded
    | .atSelect, some .canceled =>
      some (osExit 1
        (println "Erro: Timeout - nenhuma API respondeu em menos de 1 segundo"
          { s with pc := .timedOut }))
    | _, _ => none

/-- A run of the process along a list of events; none when some event of the list
cannot happen where it stands. -/
def run (env : Env) : List Event → Sys → Option Sys
  | [], s => some s
  | e :: es, s => (step env e s).bind (run env es)

/-! ## Vocabulary of the statements about payload keys -/

/-- Whether no member of a JSON object is stored in the struct field with the given
JSON name: no member key is the name, as written or in another letter case. -/
def keyAbsent (foldRune : Char → Char) (name : String)
    (members : List (String × JSONValue)) : Bool :=
  members.all fun kv => foldName foldRune kv.1 != foldName foldRune name

/-- The members of a payload: those of a JSON object, none for any other payload
(the payload null among them). -/
def payloadMembers : Option JSONValue → List (String × JSONValue)
  | some (.object members) => members
  | _ => []

/-- Whether no member of a JSON object has exactly the given key. -/
def keyMissing (name : String) (members : List (String × JSONValue)) : Bool :=
  members.all fun kv => kv.1 != name

/-- The JSON names of the payload record of an adapter. -/
def Adapter.fields : Adapter → List String
  | .brasilAPI => brasilFields
  | .viaCEP => viaCEPFields

/-- For each of the five address fields, the provider key it is copied from (the
struct tag of the payload field on the right of main.go lines 70 to 74 and 106 to
110) and the field of the published address. -/
def Adapter.addressKeys : Adapter → List (String × (APIResponse → String))
  | .brasilAPI =>
    [("cep", APIResponse.CEP), ("street", APIResponse.Street),
     ("district", APIResponse.District), ("city", APIResponse.City),
     ("state", APIResponse.State)]
  | .viaCEP =>
    [("cep", APIResponse.CEP), ("logradouro", APIResponse.Street),
     ("bairro", APIResponse.District), ("localidade", APIResponse.City),
     ("uf", APIResponse.State)]

/-- The address with five empty fields and the name of the adapter. -/
def emptyAddress (a : Adapter) : APIResponse :=
  { CEP := "", Street := "", District := "", City := "", State := "", APIName := a.name }

/-! ## Vocabulary of the statements about the process -/

/-- Number of channel slots a goroutine can still ask for: none before it is
started, one while its HTTP exchange is open, and afterwards the number of values
it has still to send. -/
def GoState.slots : GoState → Nat
  | .notStarted => 0
  | .running _ => 1
  | .sending vals => vals.length

/-- The channel has capacity 2, and the values queued in it together with the
values the two goroutines can still send are at most 2. -/
def SlotInv (s : Sys) : Prop :=
  s.chanCap = some 2 ∧ s.chanBuf.length + s.brasil.slots + s.viacep.slots ≤ 2

/-- The lines the receive branch prints for an address. -/
def responseLines (r : APIResponse) : List String :=
  ["API mais rápida: " ++ r.APIName ++ "\n", "CEP: " ++ r.CEP ++ "\n",
   "Logradouro: " ++ r.Street ++ "\n", "Bairro: " ++ r.District ++ "\n",
   "Cidade: " ++ r.City ++ "\n", "Estado: " ++ r.State ++ "\n"]

/-- The line the ctx.Done() branch prints. -/
def timeoutLines : List String :=
  ["Erro: Timeout - nenhuma API respondeu em menos de 1 segundo\n"]

/-- The lines the usage branch prints. -/
def usageLines : List String :=
  ["Uso: go run main.go <CEP>\n", "Exemplo: go run main.go 01153000\n"]

/-- What holds of the process at each place main can be.
After the usage branch: the two usage lines are printed, the status is 1, and no
context, channel, goroutine or request exists.
In the select: nothing is printed, the process runs, cancel is deferred and was
never called, nothing was received, the channel holds the published values in
order, and the context is active or past its deadline.
After the receive branch with r: the six lines of r are printed, the status is 0,
one value was received and it is the first published, cancel was called once.
After the ctx.Done() branch: the timeout line is printed, the status is 1, nothing
was received, cancel was never called and the context is past its deadline. -/
def ProcInv (s : Sys) : Prop :=
  match s.pc with
  | .entry => False
  | .usageExit =>
    s.stdout = usageLines ∧
    s.exitCode = some 1 ∧ s.ctx = none ∧ s.chanCap = none ∧
    s.brasil = .notStarted ∧ s.viacep = .notStarted ∧ s.requests = [] ∧
    s.published = [] ∧ s.reads = 0 ∧ s.cancelCalls = 0
  | .atSelect =>
    s.stdout = [] ∧ s.exitCode = none ∧ s.deferred = [.cancel] ∧ s.cancelCalls = 0 ∧
    s.reads = 0 ∧ s.chanBuf = s.published.map Prod.snd ∧
    (s.ctx = some .active ∨ s.ctx = some .deadlineExceeded)
  | .received r =>
    s.stdout = responseLines r ∧
    s.exitCode = some 0 ∧ s.cancelCalls = 1 ∧ s.reads = 1 ∧
    (s.ctx = some .canceled ∨ s.ctx = some .deadlineExceeded) ∧
    (∃ a rest, s.published = (a, r) :: rest)
  | .timedOut =>
    s.stdout = timeoutLines ∧
    s.exitCode = some 1 ∧ s.cancelCalls = 0 ∧ s.reads = 0 ∧
    s.ctx = some .deadlineExceeded

/-- Every value a goroutine has still to send, and every value published so far,
carries the name of its adapter in APIName. -/
def NamesInv (s : Sys) : Prop :=
  (∀ a vals, s.goroutine a = .sending vals → ∀ v ∈ vals, v.APIName = a.name) ∧
  (∀ p ∈ s.published, p.2.APIName = p.1.name)

/-! ## Concrete inputs used to evaluate the definitions -/

/-- A BrasilAPI payload for CEP 01153000. -/
def brasilBody : JSONValue :=
  .object [("cep", .string "01153000"), ("state", .string "SP"),
    ("city", .string "São Paulo"), ("neighborhood", .string "Barra Funda"),
    ("street", .string "Rua Vitorino Carmilo"), ("service", .string "open-cep")]

/-- A ViaCEP payload for CEP 01153000. -/
def viaCEPBody : JSONValue :=
  .object [("cep", .string "01153-000"), ("logradouro", .string "Rua Vitorino Carmilo"),
    ("complemento", .string ""), ("bairro", .string "Barra Funda"),
    ("localidade", .string "São Paulo"), ("uf", .string "SP"),
    ("ibge", .string "3550308"), ("gia", .string "1004"), ("ddd", .string "11"),
    ("siafi", .string "7107")]

/-- A payload whose only key is CEP in upper case. -/
def upperCepBody : JSONValue :=
  .object [("CEP", .string "1")]

/-- The reply of ViaCEP for a CEP it does not know. -/
def viaCEPErro : JSONValue :=
  .object [("erro", .string "true")]

/-- A network in which every request is built, BrasilAPI answers with the given
status and brasilBody, and ViaCEP answers with the given status and body. -/
def sampleEnv (brasilStatus viaStatus : Int) (viaBody : JSONValue) : Env :=
  { newRequestWithContext := fun m u => some { method := m, url := u }
    clientDo := fun req =>
      if req.url = "https://brasilapi.com.br/api/cep/v1/01153000" then
        some { StatusCode := brasilStatus, Body := some brasilBody }
      else some { StatusCode := viaStatus, Body := some viaBody }
    foldRune := id }

/-- Both providers answer 200 with a full payload. -/
def envOK : Env := sampleEnv 200 200 viaCEPBody

/-- An argument vector with the CEP 01153000. -/
def sampleArgs : List String := ["main", "01153000"]

/-- The address BrasilAPI publishes in envOK. -/
def brasilAddress : APIResponse :=
  { CEP := "01153000", Street := "Rua Vitorino Carmilo", District := "", City := "São Paulo",
    State := "SP", APIName := "BrasilAPI" }

/-- The address ViaCEP publishes in envOK. -/
def viaCEPAddress : APIResponse :=
  { CEP := "01153-000", Street := "Rua Vitorino Carmilo", District := "Barra Funda",
    City := "São Paulo", State := "SP", APIName := "ViaCEP" }

/-- The process of sampleArgs in envOK after BrasilAPI has finished its exchange and
sent its address, main still waiting in its select. -/
def stateBrasilPublished : Sys :=
  { pc := .atSelect, stdout := [], exitCode := none, ctx := some .active
    deferred := [.cancel], chanCap := some 2, chanBuf := [brasilAddress]
    brasil := .sending [], viacep := .running "01153000"
    requests := [{ method := "GET", url := "https://brasilapi.com.br/api/cep/v1/01153000" }]
    published := [(.brasilAPI, brasilAddress)], reads := 0, cancelCalls := 0 }

/-- The process of sampleArgs after the deadline has expired with nothing
published, main still waiting in its select. -/
def stateDeadlineEmpty : Sys :=
  { pc := .atSelect, stdout := [], exitCode := none, ctx := some .deadlineExceeded
    deferred := [.cancel], chanCap := some 2, chanBuf := []
    brasil := .running "01153000", viacep := .running "01153000"
    requests := [], published := [], reads := 0, cancelCalls := 0 }

/-! ## The adapters -/

theorem fetch_sends_length_le (env : Env) (a : Adapter) (cep : String) :
    (a.fetch env cep).sends.length ≤ 1 := by
  cases a
  · simp only [Adapter.fetch, fetchBrasilAPI]
    split
    · simp
    · split
      · simp
      · split
        · simp
        · split <;> simp
  · simp only [Adapter.fetch, fetchViaCEP]
    split
    · simp
    · split
      · simp
      · split
        · simp
        · split <;> simp

theorem fetch_sends_name (env : Env) (a : Adapter) (cep : String) (v : APIResponse)
    (hv : v ∈ (a.fetch env cep).sends) : v.APIName = a.name := by
  cases a
  · simp only [Adapter.fetch, fetchBrasilAPI] at hv
    split at hv
    · simp at hv
    · split at hv
      · simp at hv
      · split at hv
        · simp at hv
        · split at hv
          · simp at hv
          · simp at hv
            subst hv
            rfl
  · simp only [Adapter.fetch, fetchViaCEP] at hv
    split at hv
    · simp at hv
    · split at hv
      · simp at hv
      · split at hv
        · simp at hv
        · split at hv
          · simp at hv
          · simp at hv
            subst hv
            rfl

/-- C3: one run of either adapter sends on the result channel at most once, and it
sends nothing when the request cannot be built, when client.Do returns an error
(cancellation and expiry of the context included), when the status code is outside
200 to 299, or when the body does not decode.  A run has no other output than its
sends, so in those cases nothing, and no error, is returned or published. -/
theorem adapter_sends_at_most_once (env : Env) (a : Adapter) (cep : String) :
    (a.fetch env cep).sends.length ≤ 1 ∧
    (env.newRequestWithContext "GET" (a.url cep) = none →
      (a.fetch env cep).sends = []) ∧
    (∀ req, env.newRequestWithContext "GET" (a.url cep) = some req →
      env.clientDo req = none → (a.fetch env cep).sends = []) ∧
    (∀ req resp, env.newRequestWithContext "GET" (a.url cep) = some req →
      env.clientDo req = some resp → (resp.StatusCode < 200 ∨ 299 < resp.StatusCode) →
      (a.fetch env cep).sends = []) ∧
    (∀ req resp, env.newRequestWithContext "GET" (a.url cep) = some req →
      env.clientDo req = some resp → a.decodes env resp.Body = false →
      (a.fetch env cep).sends = []) := by
  refine ⟨fetch_sends_length_le env a cep, ?_, ?_, ?_, ?_⟩
  · intro h
    cases a <;> simp only [Adapter.url] at h <;>
      simp [Adapter.fetch, fetchBrasilAPI, fetchViaCEP, h]
  · intro req h hdo
    cases a <;> simp only [Adapter.url] at h <;>
      simp [Adapter.fetch, fetchBrasilAPI, fetchViaCEP, h, hdo]
  · intro req resp h hdo hst
    have hne : resp.StatusCode ≠ StatusOK := by
      unfold StatusOK
      omega
    cases a <;> simp only [Adapter.url] at h <;>
      simp [Adapter.fetch, fetchBrasilAPI, fetchViaCEP, h, hdo, hne]
  · intro req resp h hdo hdec
    cases a
    · have hd : decodeBrasilAPI env.foldRune resp.Body = none := by
        cases hx : decodeBrasilAPI env.foldRune resp.Body
        · rfl
        · simp [Adapter.decodes, hx] at hdec
      simp only [Adapter.url] at h
      simp only [Adapter.fetch, fetchBrasilAPI, h, hdo, hd]
      split <;> rfl
    · have hd : decodeViaCEP env.foldRune resp.Body = none := by
        cases hx : decodeViaCEP env.foldRune resp.Body
        · rfl
        · simp [Adapter.decodes, hx] at hdec
      simp only [Adapter.url] at h
      simp only [Adapter.fetch, fetchViaCEP, h, hdo, hd]
      split <;> rfl

theorem fetchBrasilAPI_sends_of_decode (env : Env) (cep : String) (req : Request)
    (resp : Response) (d : BrasilAPIResponse)
    (hreq : env.newRequestWithContext "GET" (Adapter.brasilAPI.url cep) = some req)
    (hdo : env.clientDo req = some resp) (hst : resp.StatusCode = StatusOK)
    (hdec : decodeBrasilAPI env.foldRune resp.Body = some d) :
    (fetchBrasilAPI env cep).sends =
      [{ CEP := d.Cep, Street := d.Street, District := d.District, City := d.City,
         State := d.State, APIName := "BrasilAPI" }] := by
  simp only [Adapter.url] at hreq
  simp [fetchBrasilAPI, hreq, hdo, hst, hdec]

theorem fetchViaCEP_sends_of_decode (env : Env) (cep : String) (req : Request)
    (resp : Response) (d : ViaCEPResponse)
    (hreq : env.newRequestWithContext "GET" (Adapter.viaCEP.url cep) = some req)
    (hdo : env.clientDo req = some resp) (hst : resp.StatusCode = StatusOK)
    (hdec : decodeViaCEP env.foldRune resp.Body = some d) :
    (fetchViaCEP env cep).sends =
      [{ CEP := d.Cep, Street := d.Logradouro, District := d.Bairro, City := d.Localidade,
         State := d.Uf, APIName := "ViaCEP" }] := by
  simp only [Adapter.url] at hreq
  simp [fetchViaCEP, hreq, hdo, hst, hdec]

/-- C4, as the code has it: for either adapter and every response the transport
returns, a status code that is exactly 200 (http.StatusOK) with a body that decodes
into the payload record of the provider makes the adapter send exactly one address,
carrying the name of the adapter, on the result channel; every other status code,
the other codes from 201 to 299 included, makes the adapter send nothing. -/
theorem adapter_publishes_on_status_ok (env : Env) (a : Adapter) (cep : String)
    (req : Request) (resp : Response)
    (hreq : env.newRequestWithContext "GET" (a.url cep) = some req)
    (hdo : env.clientDo req = some resp) :
    (resp.StatusCode = 200 → a.decodes env resp.Body = true →
      ∃ v, (a.fetch env cep).sends = [v] ∧ v.APIName = a.name) ∧
    (resp.StatusCode ≠ 200 → (a.fetch env cep).sends = []) := by
  constructor
  · intro hst hdec
    cases a
    · cases hx : decodeBrasilAPI env.foldRune resp.Body with
      | none => simp [Adapter.decodes, hx] at hdec
      | some d =>
        exact ⟨_, fetchBrasilAPI_sends_of_decode env cep req resp d hreq hdo hst hx, rfl⟩
    · cases hx : decodeViaCEP env.foldRune resp.Body with
      | none => simp [Adapter.decodes, hx] at hdec
      | some d =>
        exact ⟨_, fetchViaCEP_sends_of_decode env cep req resp d hreq hdo hst hx, rfl⟩
  · intro hst
    have hne : resp.StatusCode ≠ StatusOK := hst
    cases a <;> simp only [Adapter.url] at hreq <;>
      simp [Adapter.fetch, fetchBrasilAPI, fetchViaCEP, hreq, hdo, hne]

/-- C4, witness: in envOK the BrasilAPI adapter gets status 200 and a body that
decodes, and it sends one address. -/
theorem adapter_publishes_on_status_ok_witness :
    ∃ v, (Adapter.brasilAPI.fetch envOK "01153000").sends = [v] ∧
      v.APIName = Adapter.brasilAPI.name :=
  (adapter_publishes_on_status_ok envOK .brasilAPI "01153000"
    { method := "GET", url := "https://brasilapi.com.br/api/cep/v1/01153000" }
    { StatusCode := 200, Body := some brasilBody } rfl rfl).1 rfl (by decide)

/-- C4, counterexample: ViaCEP answers the request for CEP 01153000 with status
201, which is in the range 200 to 299, and with a body that decodes into
ViaCEPResponse; fetchViaCEP sends nothing, because the adapter returns on every
status other than 200. -/
theorem status_201_not_published :
    ((sampleEnv 200 201 viaCEPBody).newRequestWithContext "GET"
        (Adapter.viaCEP.url "01153000")).map
        (fun req => ((sampleEnv 200 201 viaCEPBody).clientDo req).map
          (fun resp => (resp.StatusCode,
            Adapter.viaCEP.decodes (sampleEnv 200 201 viaCEPBody) resp.Body)))
      = some (some (201, true)) ∧
    (200 : Int) ≤ 201 ∧ (201 : Int) ≤ 299 ∧
    (fetchViaCEP (sampleEnv 200 201 viaCEPBody) "01153000").sends = [] := by
  decide

/-- C5: when fetchBrasilAPI decodes the body into a BrasilAPIResponse d, the one
address it sends is CEP = d.Cep, Street = d.Street, District = d.District,
City = d.City, State = d.State, APIName = "BrasilAPI"; a run with another network,
another CEP argument and another value of d.Service sends the same address as long
as the five copied fields of the decoded record agree. -/
theorem fetchBrasilAPI_normalization (env : Env) (cep : String) (req : Request)
    (resp : Response) (d : BrasilAPIResponse)
    (hreq : env.newRequestWithContext "GET" (Adapter.brasilAPI.url cep) = some req)
    (hdo : env.clientDo req = some resp) (hst : resp.StatusCode = StatusOK)
    (hdec : decodeBrasilAPI env.foldRune resp.Body = some d) :
    (fetchBrasilAPI env cep).sends =
      [{ CEP := d.Cep, Street := d.Street, District := d.District, City := d.City,
         State := d.State, APIName := "BrasilAPI" }] ∧
    ∀ (env2 : Env) (cep2 : String) (req2 : Request) (resp2 : Response)
      (d2 : BrasilAPIResponse),
      env2.newRequestWithContext "GET" (Adapter.brasilAPI.url cep2) = some req2 →
      env2.clientDo req2 = some resp2 → resp2.StatusCode = StatusOK →
      decodeBrasilAPI env2.foldRune resp2.Body = some d2 →
      d2.Cep = d.Cep → d2.Street = d.Street → d2.District = d.District →
      d2.City = d.City → d2.State = d.State →
      (fetchBrasilAPI env2 cep2).sends = (fetchBrasilAPI env cep).sends := by
  refine ⟨fetchBrasilAPI_sends_of_decode env cep req resp d hreq hdo hst hdec, ?_⟩
  intro env2 cep2 req2 resp2 d2 hreq2 hdo2 hst2 hdec2 h1 h2 h3 h4 h5
  rw [fetchBrasilAPI_sends_of_decode env cep req resp d hreq hdo hst hdec,
    fetchBrasilAPI_sends_of_decode env2 cep2 req2 resp2 d2 hreq2 hdo2 hst2 hdec2,
    h1, h2, h3, h4, h5]

/-- C5, witness: the run of fetchBrasilAPI in envOK on CEP 01153000. -/
theorem fetchBrasilAPI_normalization_witness :
    (fetchBrasilAPI envOK "01153000").sends = [brasilAddress] :=
  (fetchBrasilAPI_normalization envOK "01153000"
    { method := "GET", url := "https://brasilapi.com.br/api/cep/v1/01153000" }
    { StatusCode := 200, Body := some brasilBody }
    { Cep := "01153000", State := "SP", City := "São Paulo", District := "",
      Street := "Rua Vitorino Carmilo", Service := "open-cep" }
    rfl rfl rfl (by decide)).1

/-- C6: when fetchViaCEP decodes the body into a ViaCEPResponse d, the one address
it sends is CEP = d.Cep, Street = d.Logradouro, District = d.Bairro,
City = d.Localidade, State = d.Uf, APIName = "ViaCEP"; a run with another network,
another CEP argument and other values of Complemento, Ibge, Gia, Ddd and Siafi sends
the same address as long as the five copied fields of the decoded record agree. -/
theorem fetchViaCEP_normalization (env : Env) (cep : String) (req : Request)
    (resp : Response) (d : ViaCEPResponse)
    (hreq : env.newRequestWithContext "GET" (Adapter.viaCEP.url cep) = some req)
    (hdo : env.clientDo req = some resp) (hst : resp.StatusCode = StatusOK)
    (hdec : decodeViaCEP env.foldRune resp.Body = some d) :
    (fetchViaCEP env cep).sends =
      [{ CEP := d.Cep, Street := d.Logradouro, District := d.Bairro, City := d.Localidade,
         State := d.Uf, APIName := "ViaCEP" }] ∧
    ∀ (env2 : Env) (cep2 : String) (req2 : Request) (resp2 : Response)
      (d2 : ViaCEPResponse),
      env2.newRequestWithContext "GET" (Adapter.viaCEP.url cep2) = some req2 →
      env2.clientDo req2 = some resp2 → resp2.StatusCode = StatusOK →
      decodeViaCEP env2.foldRune resp2.Body = some d2 →
      d2.Cep = d.Cep → d2.Logradouro = d.Logradouro → d2.Bairro = d.Bairro →
      d2.Localidade = d.Localidade → d2.Uf = d.Uf →
      (fetchViaCEP env2 cep2).sends = (fetchViaCEP env cep).sends := by
  refine ⟨fetchViaCEP_sends_of_decode env cep req resp d hreq hdo hst hdec, ?_⟩
  intro env2 cep2 req2 resp2 d2 hreq2 hdo2 hst2 hdec2 h1 h2 h3 h4 h5
  rw [fetchViaCEP_sends_of_decode env cep req resp d hreq hdo hst hdec,
    fetchViaCEP_sends_of_decode env2 cep2 req2 resp2 d2 hreq2 hdo2 hst2 hdec2,
    h1, h2, h3, h4, h5]

/-- C6, witness: the run of fetchViaCEP in envOK on CEP 01153000. -/
theorem fetchViaCEP_normalization_witness :
    (fetchViaCEP envOK "01153000").sends = [viaCEPAddress] :=
  (fetchViaCEP_normalization envOK "01153000"
    { method := "GET", url := "http://viacep.com.br/ws/01153000/json/" }
    { StatusCode := 200, Body := some viaCEPBody }
    { Cep := "01153-000", Logradouro := "Rua Vitorino Carmilo", Complemento := "",
      Bairro := "Barra Funda", Localidade := "São Paulo", Uf := "SP", Ibge := "3550308",
      Gia := "1004", Ddd := "11", Siafi := "7107" }
    rfl rfl rfl (by decide)).1

/-- C3, witness: ViaCEP answers with status 404 and fetchViaCEP sends nothing. -/
theorem adapter_sends_at_most_once_witness :
    (Adapter.viaCEP.fetch (sampleEnv 200 404 viaCEPBody) "01153000").sends = [] :=
  (adapter_sends_at_most_once (sampleEnv 200 404 viaCEPBody) .viaCEP "01153000").2.2.2.1
    { method := "GET", url := "http://viacep.com.br/ws/01153000/json/" }
    { StatusCode := 404, Body := some viaCEPBody } rfl rfl (by decide)

/-! ## Decoding and absent keys -/

theorem findField_fold (foldRune : Char → Char) (fields : List String) (k f : String)
    (h : findField foldRune fields k = some f) :
    f ∈ fields ∧ foldName foldRune f = foldName foldRune k := by
  unfold findField at h
  split at h
  · rename_i g hg
    have h1 := List.find?_some hg
    have h2 := List.mem_of_find?_eq_some hg
    simp only [Option.some.injEq] at h
    subst h
    simp only [beq_iff_eq] at h1
    subst h1
    exact ⟨h2, rfl⟩
  · have h1 := List.find?_some h
    have h2 := List.mem_of_find?_eq_some h
    simp only [beq_iff_eq] at h1
    exact ⟨h2, h1⟩

theorem decodeMembers_absent {α : Type} (foldRune : Char → Char) (fields : List String)
    (set : α → String → String → α) (get : α → String) (name : String)
    (hset : ∀ d f s, f ≠ name → get (set d f s) = get d)
    (members : List (String × JSONValue)) :
    ∀ (d d2 : α), keyAbsent foldRune name members = true →
      decodeMembers foldRune fields set members d = some d2 → get d2 = get d := by
  induction members with
  | nil =>
    intro d d2 _ h
    simp only [decodeMembers, Option.some.injEq] at h
    rw [h]
  | cons kv rest ih =>
    intro d d2 habs h
    obtain ⟨k, v⟩ := kv
    simp only [keyAbsent, List.all_cons, Bool.and_eq_true, bne_iff_ne, ne_eq] at habs
    have hrest : keyAbsent foldRune name rest = true := by
      simp only [keyAbsent]
      exact habs.2
    unfold decodeMembers at h
    split at h
    · exact ih d d2 hrest h
    · rename_i f hf
      have hfn : f ≠ name := by
        intro hfe
        apply habs.1
        rw [← (findField_fold foldRune fields k f hf).2, hfe]
      split at h
      · rw [ih _ d2 hrest h, hset d f _ hfn]
      · exact ih d d2 hrest h
      · simp at h

theorem decodeMembers_all_absent {α : Type} (foldRune : Char → Char)
    (fields : List String) (set : α → String → String → α)
    (members : List (String × JSONValue))
    (habs : ∀ f ∈ fields, keyAbsent foldRune f members = true) :
    ∀ d : α, decodeMembers foldRune fields set members d = some d := by
  induction members with
  | nil =>
    intro d
    rfl
  | cons kv rest ih =>
    intro d
    obtain ⟨k, v⟩ := kv
    have hrest : ∀ f ∈ fields, keyAbsent foldRune f rest = true := by
      intro f hf
      have := habs f hf
      simp only [keyAbsent, List.all_cons, Bool.and_eq_true] at this
      simp only [keyAbsent]
      exact this.2
    unfold decodeMembers
    split
    · exact ih hrest d
    · rename_i f hf
      exfalso
      have hk := findField_fold foldRune fields k f hf
      have := habs f hk.1
      simp only [keyAbsent, List.all_cons, Bool.and_eq_true, bne_iff_ne, ne_eq] at this
      exact this.1 hk.2.symm

theorem setBrasilField_Cep (d : BrasilAPIResponse) (f s : String) (hf : f ≠ "cep") :
    (setBrasilField d f s).Cep = d.Cep := by
  unfold setBrasilField
  repeat' split
  all_goals first | exact absurd (by assumption) hf | rfl

theorem setBrasilField_Street (d : BrasilAPIResponse) (f s : String) (hf : f ≠ "street") :
    (setBrasilField d f s).Street = d.Street := by
  unfold setBrasilField
  repeat' split
  all_goals first | exact absurd (by assumption) hf | rfl

theorem setBrasilField_District (d : BrasilAPIResponse) (f s : String) (hf : f ≠ "district") :
    (setBrasilField d f s).District = d.District := by
  unfold setBrasilField
  repeat' split
  all_goals first | exact absurd (by assumption) hf | rfl

theorem setBrasilField_City (d : BrasilAPIResponse) (f s : String) (hf : f ≠ "city") :
    (setBrasilField d f s).City = d.City := by
  unfold setBrasilField
  repeat' split
  all_goals first | exact absurd (by assumption) hf | rfl

theorem setBrasilField_State (d : BrasilAPIResponse) (f s : String) (hf : f ≠ "state") :
    (setBrasilField d f s).State = d.State := by
  unfold setBrasilField
  repeat' split
  all_goals first | exact absurd (by assumption) hf | rfl

theorem setViaCEPField_Cep (d : ViaCEPResponse) (f s : String) (hf : f ≠ "cep") :
    (setViaCEPField d f s).Cep = d.Cep := by
  unfold setViaCEPField
  repeat' split
  all_goals first | exact absurd (by assumption) hf | rfl

theorem setViaCEPField_Logradouro (d : ViaCEPResponse) (f s : String) (hf : f ≠ "logradouro") :
    (setViaCEPField d f s).Logradouro = d.Logradouro := by
  unfold setViaCEPField
  repeat' split
  all_goals first | exact absurd (by assumption) hf | rfl

theorem setViaCEPField_Bairro (d : ViaCEPResponse) (f s : String) (hf : f ≠ "bairro") :
    (setViaCEPField d f s).Bairro = d.Bairro := by
  unfold setViaCEPField
  repeat' split
  all_goals first | exact absurd (by assumption) hf | rfl

theorem setViaCEPField_Localidade (d : ViaCEPResponse) (f s : String) (hf : f ≠ "localidade") :
    (setViaCEPField d f s).Localidade = d.Localidade := by
  unfold setViaCEPField
  repeat' split
  all_goals first | exact absurd (by assumption) hf | rfl

theorem setViaCEPField_Uf (d : ViaCEPResponse) (f s : String) (hf : f ≠ "uf") :
    (setViaCEPField d f s).Uf = d.Uf := by
  unfold setViaCEPField
  repeat' split
  all_goals first | exact absurd (by assumption) hf | rfl

theorem decodeStruct_absent {α : Type} (foldRune : Char → Char) (fields : List String)
    (set : α → String → String → α) (zero : α) (get : α → String) (name : String)
    (hset : ∀ d f s, f ≠ name → get (set d f s) = get d)
    (body : Option JSONValue) (d : α)
    (habs : keyAbsent foldRune name (payloadMembers body) = true)
    (hdec : decodeStruct foldRune fields set zero body = some d) : get d = get zero := by
  unfold decodeStruct at hdec
  split at hdec
  · simp at hdec
  · simp only [Option.some.injEq] at hdec
    rw [hdec]
  · exact decodeMembers_absent foldRune fields set get name hset _ zero d habs hdec
  · simp at hdec

/-- C8, as the code has it: a response with status 200.  When its payload decodes
(a JSON object, or the payload null), the adapter sends one address, and each of its
five address fields whose provider key is absent from the payload in every letter
case (Decode matches a member key exactly or case-insensitively) is the empty
string.  When the payload is an object holding none of the keys of the payload
record in any letter case (as the reply erro of ViaCEP for an unknown CEP), or is
null, it decodes and the adapter sends the address with five empty fields and its
own APIName: the reply is not a failure. -/
theorem absent_key_is_empty_string (env : Env) (a : Adapter) (cep : String)
    (req : Request) (resp : Response)
    (hreq : env.newRequestWithContext "GET" (a.url cep) = some req)
    (hdo : env.clientDo req = some resp) (hst : resp.StatusCode = StatusOK) :
    (a.decodes env resp.Body = true →
      ∃ v, (a.fetch env cep).sends = [v] ∧ v.APIName = a.name ∧
        ∀ kf ∈ a.addressKeys,
          keyAbsent env.foldRune kf.1 (payloadMembers resp.Body) = true → kf.2 v = "") ∧
    (∀ members, resp.Body = some (.object members) →
      (∀ f ∈ a.fields, keyAbsent env.foldRune f members = true) →
      (a.fetch env cep).sends = [emptyAddress a]) ∧
    (resp.Body = some .null → (a.fetch env cep).sends = [emptyAddress a]) := by
  refine ⟨?_, ?_, ?_⟩
  · intro hdec
    cases a
    · cases hx : decodeBrasilAPI env.foldRune resp.Body with
      | none => simp [Adapter.decodes, hx] at hdec
      | some d =>
        refine ⟨_, fetchBrasilAPI_sends_of_decode env cep req resp d hreq hdo hst hx, rfl, ?_⟩
        intro kf hkf habs
        simp only [Adapter.addressKeys, List.mem_cons, List.mem_singleton,
          List.not_mem_nil, or_false] at hkf
        rcases hkf with h | h | h | h | h <;> subst h
        · exact decodeStruct_absent _ _ _ _ BrasilAPIResponse.Cep "cep"
            setBrasilField_Cep _ _ habs hx
        · exact decodeStruct_absent _ _ _ _ BrasilAPIResponse.Street "street"
            setBrasilField_Street _ _ habs hx
        · exact decodeStruct_absent _ _ _ _ BrasilAPIResponse.District "district"
            setBrasilField_District _ _ habs hx
        · exact decodeStruct_absent _ _ _ _ BrasilAPIResponse.City "city"
            setBrasilField_City _ _ habs hx
        · exact decodeStruct_absent _ _ _ _ BrasilAPIResponse.State "state"
            setBrasilField_State _ _ habs hx
    · cases hx : decodeViaCEP env.foldRune resp.Body with
      | none => simp [Adapter.decodes, hx] at hdec
      | some d =>
        refine ⟨_, fetchViaCEP_sends_of_decode env cep req resp d hreq hdo hst hx, rfl, ?_⟩
        intro kf hkf habs
        simp only [Adapter.addressKeys, List.mem_cons, List.mem_singleton,
          List.not_mem_nil, or_false] at hkf
        rcases hkf with h | h | h | h | h <;> subst h
        · exact decodeStruct_absent _ _ _ _ ViaCEPResponse.Cep "cep"
            setViaCEPField_Cep _ _ habs hx
        · exact decodeStruct_absent _ _ _ _ ViaCEPResponse.Logradouro "logradouro"
            setViaCEPField_Logradouro _ _ habs hx
        · exact decodeStruct_absent _ _ _ _ ViaCEPResponse.Bairro "bairro"
            setViaCEPField_Bairro _ _ habs hx
        · exact decodeStruct_absent _ _ _ _ ViaCEPResponse.Localidade "localidade"
            setViaCEPField_Localidade _ _ habs hx
        · exact decodeStruct_absent _ _ _ _ ViaCEPResponse.Uf "uf"
            setViaCEPField_Uf _ _ habs hx
  · intro members hbody hall
    cases a
    · have hx : decodeBrasilAPI env.foldRune resp.Body = some zeroBrasil := by
        rw [hbody]
        exact decodeMembers_all_absent _ _ _ members hall zeroBrasil
      exact fetchBrasilAPI_sends_of_decode env cep req resp _ hreq hdo hst hx
    · have hx : decodeViaCEP env.foldRune resp.Body = some zeroViaCEP := by
        rw [hbody]
        exact decodeMembers_all_absent _ _ _ members hall zeroViaCEP
      exact fetchViaCEP_sends_of_decode env cep req resp _ hreq hdo hst hx
  · intro hbody
    cases a
    · have hx : decodeBrasilAPI env.foldRune resp.Body = some zeroBrasil := by
        rw [hbody]
        rfl
      exact fetchBrasilAPI_sends_of_decode env cep req resp _ hreq hdo hst hx
    · have hx : decodeViaCEP env.foldRune resp.Body = some zeroViaCEP := by
        rw [hbody]
        rfl
      exact fetchViaCEP_sends_of_decode env cep req resp _ hreq hdo hst hx

/-- C8, witness: ViaCEP answers status 200 with the object holding only the key
erro; fetchViaCEP sends the address with five empty fields and APIName ViaCEP. -/
theorem absent_key_is_empty_string_witness :
    (Adapter.viaCEP.fetch (sampleEnv 200 200 viaCEPErro) "01153000").sends =
      [{ CEP := "", Street := "", District := "", City := "", State := "",
         APIName := "ViaCEP" }] :=
  (absent_key_is_empty_string (sampleEnv 200 200 viaCEPErro) .viaCEP "01153000"
    { method := "GET", url := "http://viacep.com.br/ws/01153000/json/" }
    { StatusCode := 200, Body := some viaCEPErro } rfl rfl rfl).2.1
    [("erro", .string "true")] rfl (by decide)

/-- C8, counterexample: ViaCEP answers status 200 with the object whose only member
is the key CEP in upper case.  The provider key cep is absent from the payload, and
the payload decodes; yet the published address has CEP "1", not the empty string,
because Decode stores a member under the field whose name matches its key
case-insensitively. -/
theorem upper_case_key_fills_field :
    keyMissing "cep" (payloadMembers (some upperCepBody)) = true ∧
    Adapter.viaCEP.decodes (sampleEnv 200 200 upperCepBody) (some upperCepBody) = true ∧
    (fetchViaCEP (sampleEnv 200 200 upperCepBody) "01153000").sends =
      [{ CEP := "1", Street := "", District := "", City := "", State := "",
         APIName := "ViaCEP" }] := by
  decide

/-! ## The process: steps and runs -/

/-- A property that holds at the start of a run and is kept by every step holds at
the end of the run. -/
theorem run_induction (env : Env) (P : Sys → Prop)
    (hstep : ∀ e s s2, P s → step env e s = some s2 → P s2) :
    ∀ (evs : List Event) (s s2 : Sys), P s → run env evs s = some s2 → P s2 := by
  intro evs
  induction evs with
  | nil =>
    intro s s2 hp h
    simp only [run, Option.some.injEq] at h
    exact h ▸ hp
  | cons e es ih =>
    intro s s2 hp h
    simp only [run] at h
    cases hs : step env e s with
    | none => simp [hs] at h
    | some s1 =>
      rw [hs] at h
      exact ih s1 s2 (hstep e s s1 hp hs) h

theorem runDeferred_fields (ds : List Deferred) :
    ∀ s : Sys, (runDeferred ds s).pc = s.pc ∧ (runDeferred ds s).stdout = s.stdout ∧
      (runDeferred ds s).exitCode = s.exitCode ∧ (runDeferred ds s).deferred = s.deferred ∧
      (runDeferred ds s).chanCap = s.chanCap ∧ (runDeferred ds s).chanBuf = s.chanBuf ∧
      (runDeferred ds s).brasil = s.brasil ∧ (runDeferred ds s).viacep = s.viacep ∧
      (runDeferred ds s).requests = s.requests ∧
      (runDeferred ds s).published = s.published ∧ (runDeferred ds s).reads = s.reads := by
  induction ds with
  | nil =>
    intro s
    simp [runDeferred]
  | cons d rest ih =>
    intro s
    cases d
    simp only [runDeferred]
    have := ih (cancel s)
    simpa [cancel] using this

theorem printResponse_stdout (r : APIResponse) (s : Sys) :
    printResponse r s = { s with stdout := s.stdout ++ responseLines r } := by
  simp [printResponse, printf, responseLines]

theorem returnFromMain_fields (s : Sys) :
    (returnFromMain s).pc = s.pc ∧ (returnFromMain s).stdout = s.stdout ∧
      (returnFromMain s).exitCode = some 0 ∧ (returnFromMain s).deferred = [] ∧
      (returnFromMain s).chanCap = s.chanCap ∧ (returnFromMain s).chanBuf = s.chanBuf ∧
      (returnFromMain s).brasil = s.brasil ∧ (returnFromMain s).viacep = s.viacep ∧
      (returnFromMain s).requests = s.requests ∧
      (returnFromMain s).published = s.published ∧ (returnFromMain s).reads = s.reads := by
  obtain ⟨h1, h2, _, h4, h5, h6, h7, h8, h9, h10, h11⟩ :=
    runDeferred_fields s.deferred { s with deferred := [] }
  exact ⟨h1, h2, rfl, h4, h5, h6, h7, h8, h9, h10, h11⟩

theorem step_slotInv (env : Env) (e : Event) (s s2 : Sys) (hi : SlotInv s)
    (h : step env e s = some s2) : SlotInv s2 := by
  obtain ⟨hc, hl⟩ := hi
  cases e with
  | http a =>
    simp only [step] at h
    split at h
    · rename_i cep hg
      simp only [Option.some.injEq] at h
      subst h
      have := fetch_sends_length_le env a cep
      cases a <;> simp_all [SlotInv, Sys.goroutine, Sys.setGoroutine, GoState.slots] <;> omega
    · simp at h
  | send a =>
    simp only [step] at h
    split at h
    · rename_i v rest cap hg hcap
      split at h
      · simp only [Option.some.injEq] at h
        subst h
        cases a <;> simp_all [SlotInv, Sys.goroutine, Sys.setGoroutine, GoState.slots] <;> omega
      · simp at h
    · simp at h
  | deadline =>
    simp only [step] at h
    split at h
    · simp only [Option.some.injEq] at h
      subst h
      exact ⟨hc, hl⟩
    · simp at h
  | selectRecv =>
    simp only [step] at h
    split at h
    · rename_i r rest hpc hbuf
      simp only [Option.some.injEq] at h
      subst h
      have hf := returnFromMain_fields (printResponse r
        { s with pc := .received r, chanBuf := rest, reads := s.reads + 1 })
      rw [printResponse_stdout] at hf
      simp only [SlotInv, printResponse_stdout]
      rw [hf.2.2.2.2.1, hf.2.2.2.2.2.1, hf.2.2.2.2.2.2.1, hf.2.2.2.2.2.2.2.1]
      simp only [hbuf, List.length_cons] at hl
      exact ⟨hc, by simp only; omega⟩
    · simp at h
  | selectDone =>
    simp only [step] at h
    split at h
    · simp only [Option.some.injEq] at h
      subst h
      exact ⟨hc, hl⟩
    · simp only [Option.some.injEq] at h
      subst h
      exact ⟨hc, hl⟩
    · simp at h

theorem step_procInv (env : Env) (e : Event) (s s2 : Sys) (hi : ProcInv s)
    (h : step env e s = some s2) : ProcInv s2 := by
  cases e with
  | http a =>
    simp only [step] at h
    split at h
    · rename_i cep hg
      simp only [Option.some.injEq] at h
      subst h
      cases a <;> cases hpc : s.pc <;>
        simp_all [ProcInv, Sys.goroutine, Sys.setGoroutine]
    · simp at h
  | send a =>
    simp only [step] at h
    split at h
    · rename_i v rest cap hg hcap
      split at h
      · simp only [Option.some.injEq] at h
        subst h
        cases a <;> cases hpc : s.pc <;>
          simp_all [ProcInv, Sys.goroutine, Sys.setGoroutine] <;>
          (obtain ⟨_, _, _, _, _, b, tl, hp⟩ := hi
           exact ⟨b, tl ++ [_], by rw [hp]; rfl⟩)
      · simp at h
    · simp at h
  | deadline =>
    simp only [step] at h
    split at h
    · rename_i hctx
      simp only [Option.some.injEq] at h
      subst h
      cases hpc : s.pc <;> simp_all [ProcInv]
    · simp at h
  | selectRecv =>
    simp only [step] at h
    split at h
    · rename_i r rest hpc hbuf
      simp only [Option.some.injEq] at h
      subst h
      simp only [ProcInv, hpc] at hi
      obtain ⟨h1, h2, h3, h4, h5, h6, h7⟩ := hi
      have hpub : ∃ a tl, s.published = (a, r) :: tl := by
        cases hp : s.published with
        | nil => simp [hp, hbuf] at h6
        | cons p tl =>
          obtain ⟨a, r2⟩ := p
          simp only [hp, hbuf, List.map_cons, List.cons.injEq] at h6
          exact ⟨a, tl, by rw [h6.1]⟩
      rcases h7 with h7 | h7 <;>
        simp [ProcInv, returnFromMain, runDeferred, cancel, printResponse, printf,
          responseLines, h1, h3, h4, h5, h7, hpub]
    · simp at h
  | selectDone =>
    simp only [step] at h
    split at h
    · rename_i hpc hctx
      simp only [Option.some.injEq] at h
      subst h
      simp only [ProcInv, hpc] at hi
      obtain ⟨h1, h2, h3, h4, h5, h6, h7⟩ := hi
      simp [ProcInv, osExit, println, timeoutLines, h1, h4, h5, hctx]
    · rename_i hpc hctx
      simp only [ProcInv, hpc] at hi
      obtain ⟨h1, h2, h3, h4, h5, h6, h7⟩ := hi
      rcases h7 with h7 | h7 <;> simp [hctx] at h7
    · simp at h

theorem step_namesInv (env : Env) (e : Event) (s s2 : Sys) (hi : NamesInv s)
    (h : step env e s = some s2) : NamesInv s2 := by
  obtain ⟨hg, hp⟩ := hi
  cases e with
  | http a =>
    simp only [step] at h
    split at h
    · rename_i cep hrun
      simp only [Option.some.injEq] at h
      subst h
      refine ⟨?_, by cases a <;> exact hp⟩
      intro b vals hb v hv
      cases a <;> cases b <;> simp only [Sys.goroutine, Sys.setGoroutine] at hb hrun
      · simp only [GoState.sending.injEq] at hb
        subst hb
        exact fetch_sends_name env .brasilAPI cep v hv
      · exact hg .viaCEP vals hb v hv
      · exact hg .brasilAPI vals hb v hv
      · simp only [GoState.sending.injEq] at hb
        subst hb
        exact fetch_sends_name env .viaCEP cep v hv
    · simp at h
  | send a =>
    simp only [step] at h
    split at h
    · rename_i v rest cap hsend hcap
      split at h
      · simp only [Option.some.injEq] at h
        subst h
        have hv : v.APIName = a.name := hg a (v :: rest) hsend v (List.mem_cons_self _ _)
        have hrest : ∀ w ∈ rest, w.APIName = a.name := fun w hw =>
          hg a (v :: rest) hsend w (List.mem_cons_of_mem _ hw)
        constructor
        · intro b vals hb w hw
          cases a <;> cases b <;> simp only [Sys.goroutine, Sys.setGoroutine] at hb
          · simp only [GoState.sending.injEq] at hb
            subst hb
            exact hrest w hw
          · exact hg .viaCEP vals hb w hw
          · exact hg .brasilAPI vals hb w hw
          · simp only [GoState.sending.injEq] at hb
            subst hb
            exact hrest w hw
        · intro p hpm
          have hpm2 : p ∈ s.published ++ [(a, v)] := by
            cases a <;> exact hpm
          rcases List.mem_append.mp hpm2 with h1 | h1
          · exact hp p h1
          · simp only [List.mem_singleton] at h1
            subst h1
            exact hv
      · simp at h
    · simp at h
  | deadline =>
    simp only [step] at h
    split at h
    · simp only [Option.some.injEq] at h
      subst h
      exact ⟨hg, hp⟩
    · simp at h
  | selectRecv =>
    simp only [step] at h
    split at h
    · rename_i r rest hpc hbuf
      simp only [Option.some.injEq] at h
      subst h
      have hf := returnFromMain_fields (printResponse r
        { s with pc := .received r, chanBuf := rest, reads := s.reads + 1 })
      rw [printResponse_stdout] at hf
      simp only [NamesInv, printResponse_stdout, Sys.goroutine]
      rw [hf.2.2.2.2.2.2.1, hf.2.2.2.2.2.2.2.1, hf.2.2.2.2.2.2.2.2.2.1]
      refine ⟨?_, hp⟩
      intro b vals hb
      cases b
      · exact hg .brasilAPI vals hb
      · exact hg .viaCEP vals hb
    · simp at h
  | selectDone =>
    simp only [step] at h
    split at h
    · simp only [Option.some.injEq] at h
      subst h
      exact ⟨hg, hp⟩
    · simp only [Option.some.injEq] at h
      subst h
      exact ⟨hg, hp⟩
    · simp at h

/-! ## What main leaves behind when it reaches its select or exits -/

theorem main_usage (args : List String) (h : args.length < 2) :
    main args =
      { pc := .usageExit
        stdout := ["Uso: go run main.go <CEP>\n", "Exemplo: go run main.go 01153000\n"]
        exitCode := some 1, ctx := none, deferred := [], chanCap := none, chanBuf := []
        brasil := .notStarted, viacep := .notStarted, requests := [], published := []
        reads := 0, cancelCalls := 0 } := by
  simp [main, h, osExit, println, Sys.start]

theorem main_race (args : List String) (h : 2 ≤ args.length) :
    main args =
      { pc := .atSelect, stdout := [], exitCode := none, ctx := some .active
        deferred := [.cancel], chanCap := some 2, chanBuf := []
        brasil := .running (args.get ⟨1, h⟩), viacep := .running (args.get ⟨1, h⟩)
        requests := [], published := [], reads := 0, cancelCalls := 0 } := by
  have hn : ¬ args.length < 2 := by omega
  simp [main, hn, withTimeout, deferCancel, makeChan, goStart, Sys.setGoroutine, Sys.start]

theorem main_procInv (args : List String) : ProcInv (main args) := by
  by_cases h : args.length < 2
  · rw [main_usage args h]
    simp [ProcInv, usageLines]
  · rw [main_race args (by omega)]
    simp [ProcInv]

theorem main_slotInv (args : List String) (h : 2 ≤ args.length) : SlotInv (main args) := by
  rw [main_race args h]
  simp [SlotInv, GoState.slots]

theorem main_namesInv (args : List String) : NamesInv (main args) := by
  by_cases h : args.length < 2
  · rw [main_usage args h]
    refine ⟨?_, by simp⟩
    intro a vals ha
    cases a <;> simp [Sys.goroutine] at ha
  · rw [main_race args (by omega)]
    refine ⟨?_, by simp⟩
    intro a vals ha
    cases a <;> simp [Sys.goroutine] at ha

theorem run_procInv (env : Env) (args : List String) (evs : List Event) (s : Sys)
    (h : run env evs (main args) = some s) : ProcInv s :=
  run_induction env ProcInv (fun e s1 s2 hi hs => step_procInv env e s1 s2 hi hs)
    evs (main args) s (main_procInv args) h

theorem run_namesInv (env : Env) (args : List String) (evs : List Event) (s : Sys)
    (h : run env evs (main args) = some s) : NamesInv s :=
  run_induction env NamesInv (fun e s1 s2 hi hs => step_namesInv env e s1 s2 hi hs)
    evs (main args) s (main_namesInv args) h

theorem run_slotInv (env : Env) (args : List String) (hargs : 2 ≤ args.length)
    (evs : List Event) (s : Sys) (h : run env evs (main args) = some s) : SlotInv s :=
  run_induction env SlotInv (fun e s1 s2 hi hs => step_slotInv env e s1 s2 hi hs)
    evs (main args) s (main_slotInv args hargs) h

theorem step_pc_settled (env : Env) (e : Event) (s s2 : Sys) (hpc : s.pc ≠ .atSelect)
    (h : step env e s = some s2) : s2.pc = s.pc := by
  cases e with
  | http a =>
    simp only [step] at h
    split at h
    · simp only [Option.some.injEq] at h
      subst h
      cases a <;> rfl
    · simp at h
  | send a =>
    simp only [step] at h
    split at h
    · split at h
      · simp only [Option.some.injEq] at h
        subst h
        cases a <;> rfl
      · simp at h
    · simp at h
  | deadline =>
    simp only [step] at h
    split at h
    · simp only [Option.some.injEq] at h
      subst h
      rfl
    · simp at h
  | selectRecv =>
    simp only [step] at h
    split at h
    · rename_i h1 _
      exact absurd h1 hpc
    · simp at h
  | selectDone =>
    simp only [step] at h
    split at h
    · rename_i h1 _
      exact absurd h1 hpc
    · rename_i h1 _
      exact absurd h1 hpc
    · simp at h

/-- Once main has left its select, every later state of a run has the same place of
main and satisfies the process invariant. -/
theorem run_settled (env : Env) (pc : MainPC) (hpc : pc ≠ .atSelect) (evs : List Event)
    (s s2 : Sys) (hi : ProcInv s) (hs : s.pc = pc) (h : run env evs s = some s2) :
    ProcInv s2 ∧ s2.pc = pc :=
  run_induction env (fun t => ProcInv t ∧ t.pc = pc)
    (fun e t t2 ht hstep =>
      ⟨step_procInv env e t t2 ht.1 hstep,
        (step_pc_settled env e t t2 (ht.2 ▸ hpc) hstep).trans ht.2⟩)
    evs s s2 ⟨hi, hs⟩ h

/-! ## The race -/

/-- C9: main was given a CEP.  In every state a run of the process reaches, the
result channel has capacity 2, the addresses queued in it together with the sends
the two adapters can still make are at most 2, so at most 2 addresses are queued;
and an adapter that is about to send finds a free slot: its send is a step that
can happen, wherever main is and whether or not main ever receives. -/
theorem channel_never_blocks (env : Env) (args : List String) (evs : List Event)
    (s : Sys) (hargs : 2 ≤ args.length) (hrun : run env evs (main args) = some s) :
    s.chanCap = some 2 ∧
    s.chanBuf.length + s.brasil.slots + s.viacep.slots ≤ 2 ∧
    s.chanBuf.length ≤ 2 ∧
    ∀ a v rest, s.goroutine a = .sending (v :: rest) →
      ∃ s2, step env (.send a) s = some s2 ∧ s2.chanBuf = s.chanBuf ++ [v] ∧
        s2.goroutine a = .sending rest := by
  obtain ⟨hc, hl⟩ := run_slotInv env args hargs evs s hrun
  refine ⟨hc, hl, by omega, ?_⟩
  intro a v rest hg
  have hlt : s.chanBuf.length < 2 := by
    cases a <;> simp only [Sys.goroutine] at hg <;>
      simp only [hg, GoState.slots, List.length_cons] at hl <;> omega
  have hstep : step env (.send a) s =
      some { s.setGoroutine a (.sending rest) with
        chanBuf := s.chanBuf ++ [v]
        published := s.published ++ [(a, v)] } := by
    simp only [step, hg, hc, hlt, if_true]
  exact ⟨_, hstep, by cases a <;> rfl, by cases a <;> rfl⟩

/-- C9, witness: the state in which BrasilAPI has published and ViaCEP is still
running, reached from sampleArgs in envOK. -/
theorem channel_never_blocks_witness :
    stateBrasilPublished.chanCap = some 2 ∧
    stateBrasilPublished.chanBuf.length + stateBrasilPublished.brasil.slots +
      stateBrasilPublished.viacep.slots ≤ 2 :=
  have h := channel_never_blocks envOK sampleArgs [.http .brasilAPI, .send .brasilAPI]
    stateBrasilPublished (by decide) (by decide)
  ⟨h.1, h.2.1⟩

/-- A send on a channel whose buffer is full cannot happen: the sender blocks. -/
theorem send_blocks_when_full (env : Env) (a : Adapter) (s : Sys) (cap : Nat)
    (hcap : s.chanCap = some cap) (hfull : cap ≤ s.chanBuf.length) :
    step env (.send a) s = none := by
  have hn : ¬ s.chanBuf.length < cap := by omega
  simp only [step, hcap]
  split
  · rename_i heq
    simp only [Option.some.injEq] at heq
    rw [← heq, if_neg hn]
  · rfl

/-- C1, as the code has it: in a run of the process, take a state in which main is
in its select, the deadline has not expired and at least one address has been
published, a being the adapter that published first and r its address.  Then the
ctx.Done() case cannot be taken; the receive case can, and it yields r: main prints
the six lines of r and nothing else, r carries the name of a, which is BrasilAPI or
ViaCEP, one value has been received and the status is 0.  Whatever happens
afterwards (a second publish included), the output, the number of receives and the
status stay as they are. -/
theorem first_publish_wins (env : Env) (args : List String) (evs : List Event) (s : Sys)
    (a : Adapter) (r : APIResponse) (rest : List (Adapter × APIResponse))
    (hrun : run env evs (main args) = some s) (hsel : s.pc = .atSelect)
    (hctx : s.ctx = some .active) (hpub : s.published = (a, r) :: rest) :
    step env .selectDone s = none ∧
    ∃ s2, step env .selectRecv s = some s2 ∧
      s2.pc = .received r ∧ s2.stdout = responseLines r ∧ r.APIName = a.name ∧
      (r.APIName = "BrasilAPI" ∨ r.APIName = "ViaCEP") ∧
      s2.reads = 1 ∧ s2.exitCode = some 0 ∧
      ∀ evs2 s3, run env evs2 s2 = some s3 →
        s3.pc = .received r ∧ s3.stdout = responseLines r ∧ s3.reads = 1 ∧
        s3.exitCode = some 0 := by
  have hinv := run_procInv env args evs s hrun
  have hbuf : s.chanBuf = r :: rest.map Prod.snd := by
    have := hinv
    simp only [ProcInv, hsel] at this
    rw [this.2.2.2.2.2.1, hpub]
    rfl
  have hname : r.APIName = a.name :=
    (run_namesInv env args evs s hrun).2 (a, r) (by rw [hpub]; exact List.mem_cons_self _ _)
  have hstep : step env .selectRecv s = some (returnFromMain (printResponse r
      { s with pc := .received r, chanBuf := rest.map Prod.snd, reads := s.reads + 1 })) := by
    simp only [step, hsel, hbuf]
  have hinv2 := step_procInv env _ s _ hinv hstep
  have hpc2 : (returnFromMain (printResponse r
      { s with pc := .received r, chanBuf := rest.map Prod.snd, reads := s.reads + 1 })).pc
      = .received r := by
    rw [(returnFromMain_fields _).1, printResponse_stdout]
  refine ⟨by simp [step, hsel, hctx], _, hstep, hpc2, ?_, hname, ?_, ?_, ?_, ?_⟩
  · have := hinv2
    simp only [ProcInv, hpc2] at this
    exact this.1
  · rw [hname]
    cases a
    · exact Or.inl rfl
    · exact Or.inr rfl
  · have := hinv2
    simp only [ProcInv, hpc2] at this
    exact this.2.2.2.1
  · have := hinv2
    simp only [ProcInv, hpc2] at this
    exact this.2.1
  · intro evs2 s3 hrun2
    obtain ⟨hi3, hpc3⟩ := run_settled env (.received r) (by simp) evs2 _ s3 hinv2 hpc2 hrun2
    simp only [ProcInv, hpc3] at hi3
    exact ⟨hpc3, hi3.1, hi3.2.2.2.1, hi3.2.1⟩

/-- C1, witness: BrasilAPI has published before the deadline and main is in its
select; the ctx.Done() case cannot be taken. -/
theorem first_publish_wins_witness :
    step envOK .selectDone stateBrasilPublished = none :=
  (first_publish_wins envOK sampleArgs [.http .brasilAPI, .send .brasilAPI]
    stateBrasilPublished .brasilAPI brasilAddress [] (by decide) rfl rfl rfl).1

/-- C1, counterexample: BrasilAPI publishes its address while the context is still
active, then the deadline expires, and only then the select of main is evaluated
(Go puts no bound on the time main takes from its go statements to its select).
Both cases are ready and the select may take ctx.Done(): main prints the timeout
line, receives nothing and ends with status 1, although a publish came before the
deadline. -/
theorem publish_before_deadline_may_time_out :
    (run envOK [.http .brasilAPI, .send .brasilAPI] (main sampleArgs)).map
        (fun s => (s.pc, s.ctx, s.published))
      = some (.atSelect, some .active, [(.brasilAPI, brasilAddress)]) ∧
    (run envOK [.http .brasilAPI, .send .brasilAPI, .deadline, .selectDone]
        (main sampleArgs)).map (fun s => (s.pc, s.stdout, s.exitCode, s.reads))
      = some (.timedOut,
          ["Erro: Timeout - nenhuma API respondeu em menos de 1 segundo\n"], some 1, 0) := by
  decide

/-- C2, as the code has it: in a run of the process, take a state in which main is
in its select, the deadline has expired and no adapter has published.  Then the
receive case cannot be taken; the ctx.Done() case can, and main prints the timeout
line and nothing else, receives nothing and ends with status 1.  Whatever happens
afterwards, the output, the number of receives and the status stay as they are. -/
theorem empty_channel_times_out (env : Env) (args : List String) (evs : List Event)
    (s : Sys) (hrun : run env evs (main args) = some s) (hsel : s.pc = .atSelect)
    (hctx : s.ctx = some .deadlineExceeded) (hpub : s.published = []) :
    step env .selectRecv s = none ∧
    ∃ s2, step env .selectDone s = some s2 ∧
      s2.pc = .timedOut ∧ s2.stdout = timeoutLines ∧ s2.reads = 0 ∧
      s2.exitCode = some 1 ∧
      ∀ evs2 s3, run env evs2 s2 = some s3 →
        s3.pc = .timedOut ∧ s3.stdout = timeoutLines ∧ s3.reads = 0 ∧
        s3.exitCode = some 1 := by
  have hinv := run_procInv env args evs s hrun
  have hbuf : s.chanBuf = [] := by
    have := hinv
    simp only [ProcInv, hsel] at this
    rw [this.2.2.2.2.2.1, hpub]
    rfl
  have hstep : step env .selectDone s = some (osExit 1
      (println "Erro: Timeout - nenhuma API respondeu em menos de 1 segundo"
        { s with pc := .timedOut })) := by
    simp only [step, hsel, hctx]
  have hinv2 := step_procInv env _ s _ hinv hstep
  have hpc2 : (osExit 1
      (println "Erro: Timeout - nenhuma API respondeu em menos de 1 segundo"
        { s with pc := .timedOut })).pc = .timedOut := rfl
  refine ⟨by simp [step, hsel, hbuf], _, hstep, hpc2, ?_, ?_, ?_, ?_⟩
  · have := hinv2
    simp only [ProcInv, hpc2] at this
    exact this.1
  · have := hinv2
    simp only [ProcInv, hpc2] at this
    exact this.2.2.2.1
  · rfl
  · intro evs2 s3 hrun2
    obtain ⟨hi3, hpc3⟩ := run_settled env .timedOut (by simp) evs2 _ s3 hinv2 hpc2 hrun2
    simp only [ProcInv, hpc3] at hi3
    exact ⟨hpc3, hi3.1, hi3.2.2.2.1, hi3.2.1⟩

/-- C2, witness: the deadline has expired with nothing published and main is in its
select; the receive case cannot be taken. -/
theorem empty_channel_times_out_witness :
    step envOK .selectRecv stateDeadlineEmpty = none :=
  (empty_channel_times_out envOK sampleArgs [.deadline] stateDeadlineEmpty
    (by decide) rfl rfl rfl).1

/-- C2, counterexample: the deadline expires while nothing is published; BrasilAPI,
whose exchange had finished, then sends its address (the send of line 78 does not
look at the context), and only then the select of main is evaluated.  Both cases
are ready and the select may take the receive case: main prints the six address
lines and ends with status 0, although no adapter had published before the
deadline. -/
theorem late_publish_may_win :
    (run envOK [.http .brasilAPI, .deadline] (main sampleArgs)).map
        (fun s => (s.pc, s.ctx, s.published))
      = some (.atSelect, some .deadlineExceeded, []) ∧
    (run envOK [.http .brasilAPI, .deadline, .send .brasilAPI, .selectRecv]
        (main sampleArgs)).map (fun s => (s.pc, s.stdout, s.exitCode, s.reads))
      = some (.received brasilAddress,
          ["API mais rápida: BrasilAPI\n", "CEP: 01153000\n",
           "Logradouro: Rua Vitorino Carmilo\n", "Bairro: \n", "Cidade: São Paulo\n",
           "Estado: SP\n"], some 0, 1) := by
  decide

/-! ## The entry point and the cancel function -/

theorem step_usage_none (env : Env) (e : Event) (args : List String)
    (h : args.length < 2) : step env e (main args) = none := by
  rw [main_usage args h]
  cases e with
  | http a => cases a <;> rfl
  | send a => cases a <;> rfl
  | deadline => rfl
  | selectRecv => rfl
  | selectDone => rfl

/-- C7: with fewer than two entries in the argument vector, main prints the two
usage lines and ends with status 1; no context, no channel and no goroutine has
been made, no event of the process can happen, and so no request is ever handed to
client.Do.  With at least two entries, both adapters are started with the second
entry of the vector as it is, and the run of each adapter is its fetch function on
that very string. -/
theorem usage_error_and_cep_argument (args : List String) :
    (args.length < 2 →
      (main args).pc = .usageExit ∧ (main args).stdout = usageLines ∧
      (main args).exitCode = some 1 ∧ (main args).ctx = none ∧
      (main args).chanCap = none ∧ (main args).brasil = .notStarted ∧
      (main args).viacep = .notStarted ∧
      (∀ env e, step env e (main args) = none) ∧
      ∀ env evs s, run env evs (main args) = some s → s.requests = []) ∧
    (∀ h : 2 ≤ args.length,
      (main args).brasil = .running (args.get ⟨1, h⟩) ∧
      (main args).viacep = .running (args.get ⟨1, h⟩) ∧
      ∀ env a, ∃ s2, step env (.http a) (main args) = some s2 ∧
        s2.goroutine a = .sending (a.fetch env (args.get ⟨1, h⟩)).sends ∧
        s2.requests = (a.fetch env (args.get ⟨1, h⟩)).requests) := by
  constructor
  · intro h
    refine ⟨?_, ?_, ?_, ?_, ?_, ?_, ?_, fun env e => step_usage_none env e args h, ?_⟩
    · rw [main_usage args h]
    · rw [main_usage args h]
      rfl
    · rw [main_usage args h]
    · rw [main_usage args h]
    · rw [main_usage args h]
    · rw [main_usage args h]
    · rw [main_usage args h]
    · intro env evs s hrun
      cases evs with
      | nil =>
        simp only [run, Option.some.injEq] at hrun
        rw [← hrun, main_usage args h]
      | cons e es =>
        simp [run, step_usage_none env e args h] at hrun
  · intro h
    refine ⟨?_, ?_, ?_⟩
    · rw [main_race args h]
    · rw [main_race args h]
    · intro env a
      rw [main_race args h]
      cases a
      · exact ⟨_, rfl, rfl, by simp⟩
      · exact ⟨_, rfl, rfl, by simp⟩

/-- C7, witness: the argument vector with the program name alone prints the usage
lines and ends with status 1; the vector sampleArgs starts BrasilAPI with its second
entry. -/
theorem usage_error_and_cep_argument_witness :
    ((main ["main"]).stdout = usageLines ∧ (main ["main"]).exitCode = some 1) ∧
    (main sampleArgs).brasil = .running "01153000" :=
  ⟨have h := (usage_error_and_cep_argument ["main"]).1 (by decide)
   ⟨h.2.1, h.2.2.1⟩,
   ((usage_error_and_cep_argument sampleArgs).2 (by decide)).1⟩

/-- C10, as the code has it: in every state a run of the process reaches, cancel
has never been called while main is in its select; after the ctx.Done() branch,
which ends in os.Exit(1), cancel has never been called and the context is past its
deadline; after the receive branch main has returned and its deferred cancel has
been called exactly once.  When the receive branch is taken while the context is
still active, that call is what cancels the context, and the goroutines of the two
adapters are left as they were. -/
theorem cancel_called_on_return_only (env : Env) (args : List String)
    (evs : List Event) (s : Sys) (hrun : run env evs (main args) = some s) :
    (s.pc = .atSelect → s.cancelCalls = 0 ∧
      (s.ctx = some .active ∨ s.ctx = some .deadlineExceeded)) ∧
    (s.pc = .timedOut → s.cancelCalls = 0 ∧ s.ctx = some .deadlineExceeded) ∧
    (∀ r, s.pc = .received r → s.cancelCalls = 1 ∧
      (s.ctx = some .canceled ∨ s.ctx = some .deadlineExceeded)) ∧
    (s.pc = .atSelect → s.ctx = some .active →
      ∀ s2, step env .selectRecv s = some s2 →
        s2.ctx = some .canceled ∧ s2.cancelCalls = 1 ∧
        s2.brasil = s.brasil ∧ s2.viacep = s.viacep) := by
  have hinv := run_procInv env args evs s hrun
  refine ⟨?_, ?_, ?_, ?_⟩
  · intro hpc
    simp only [ProcInv, hpc] at hinv
    exact ⟨hinv.2.2.2.1, hinv.2.2.2.2.2.2⟩
  · intro hpc
    simp only [ProcInv, hpc] at hinv
    exact ⟨hinv.2.2.1, hinv.2.2.2.2⟩
  · intro r hpc
    simp only [ProcInv, hpc] at hinv
    exact ⟨hinv.2.2.1, hinv.2.2.2.2.1⟩
  · intro hpc hctx s2 hstep
    simp only [ProcInv, hpc] at hinv
    obtain ⟨_, _, hdef, hcalls, _, _, _⟩ := hinv
    simp only [step, hpc] at hstep
    split at hstep
    · rename_i r rest h1 h2
      simp only [Option.some.injEq] at hstep
      subst hstep
      simp [returnFromMain, runDeferred, cancel, printResponse, printf, hdef, hcalls, hctx]
    · simp at hstep

/-- C10, witness: in the state in which BrasilAPI has published and main is in its
select, cancel has not been called. -/
theorem cancel_called_on_return_only_witness :
    stateBrasilPublished.cancelCalls = 0 :=
  ((cancel_called_on_return_only envOK sampleArgs [.http .brasilAPI, .send .brasilAPI]
    stateBrasilPublished (by decide)).1 rfl).1

/-- C10, counterexample: BrasilAPI publishes and main takes the receive branch, with
no expiry of the deadline in the run.  Main returns, its deferred cancel is called,
and the context is canceled while the ViaCEP adapter is still running. -/
theorem winner_branch_calls_cancel :
    (run envOK [.http .brasilAPI, .send .brasilAPI, .selectRecv] (main sampleArgs)).map
        (fun s => (s.pc, s.cancelCalls, s.ctx, s.viacep))
      = some (.received brasilAddress, 1, some .canceled, .running "01153000") := by
  decide

end CepRace
